import Mathlib

/-!
Verification development for the client-side Query & Progress Orchestrator
of the product-importer admin console (static/main.js, first document of
src/unnamed/part_000).

The JavaScript is shallowly embedded: module-level mutable variables become
fields of explicit state records, each `async` handler becomes a pure
function from state (plus the values it reads from the DOM and the outcome
of its awaited network call) to a new state and a list of observable
effects, and the event-loop interleavings relevant to the claims are
modelled as explicit event traces.
-/

namespace ProductImporter

/-! ## Constants (main.js lines 5, 10, 11, 430, 866) -/

def itemsPerPage : Nat := 10
def SEARCH_DEBOUNCE_MS : Nat := 400
def MIN_SEARCH_LENGTH : Nat := 2
def windowSize : Nat := 2
def PRODUCT_REFRESH_INTERVAL : Nat := 2000

/-! ## Data model -/

/-- A product row as received from the backend. -/
structure Product where
  id : Nat
  sku : String
  name : String
  description : Option String
  active : Bool
deriving DecidableEq, Repr

/-- A page response `{ total, products }`; `total = none` models the JSON
`null` total returned when the count query times out. -/
structure PageData where
  total : Option Nat
  products : List Product
deriving DecidableEq, Repr

/-- The values of the three filter inputs read from the DOM
(`search-input`, `search-type-filter`, `status-filter`). -/
structure Dom where
  searchInput : String
  searchType : String
  statusFilter : String
deriving DecidableEq, Repr

/-- The query string is modelled as the ordered list of `(key, value)`
pairs appended to `URLSearchParams`; `URLSearchParams.toString` is
injective on these up to percent-encoding, so list equality models
query-key string equality. -/
abbrev QueryKey := List (String × String)

/-- The single prefetch slot `{ queryKey, data, page }` (lines 120-124). -/
structure CacheSlot where
  queryKey : QueryKey
  data : PageData
  page : Nat
deriving DecidableEq, Repr

/-- JS `String.prototype.trim()`: strip leading and trailing whitespace.
Implemented on the character list so that it reduces inside the kernel. -/
def jsTrim (s : String) : String :=
  String.mk (((s.data.dropWhile Char.isWhitespace).reverse.dropWhile
    Char.isWhitespace).reverse)

/-- `getQueryKey(page)` (lines 45-64): skip/limit always, search params only
when the trimmed term reaches the minimum length, `active` only when the
status filter is non-empty.  JS truthiness of a string is non-emptiness,
and `searchType || 'sku'` defaults the empty type to `"sku"`. -/
def getQueryKey (dom : Dom) (page : Nat) : QueryKey :=
  let searchTerm := jsTrim dom.searchInput
  let skip := (page - 1) * itemsPerPage
  [("skip", toString skip), ("limit", toString itemsPerPage)]
    ++ (if searchTerm ≠ "" ∧ MIN_SEARCH_LENGTH ≤ searchTerm.length then
          [("search", searchTerm),
           ("search_type", if dom.searchType = "" then "sku" else dom.searchType)]
        else [])
    ++ (if dom.statusFilter ≠ "" then
          [("active", if dom.statusFilter = "true" then "true" else "false")]
        else [])

/-- `Math.ceil(a / b)` for natural `a` and positive `b`. -/
def ceilDiv (a b : Nat) : Nat := (a + b - 1) / b

/-! ## The Request Controller: `fetchProducts` (lines 138-285)

`fetchProducts` suspends at its network call; we embed it as a big-step
function taking the awaited outcome as a parameter.  Observable actions
are collected as a list of `Effect`s in program order. -/

/-- Outcome of the awaited `fetch` of the authoritative request. -/
inductive NetOutcome
  | success (data : PageData)
  | httpError (status : Nat)
  | aborted
  | transportError (msg : String)
deriving DecidableEq, Repr

/-- Observable actions of `fetchProducts`, in program order. -/
inductive Effect
  | abortSearch
  | showLoadingEff
  | hideLoading
  | render (products : List Product) (append : Bool)
  | renderPagination (totalPages : Option Nat) (hasMore : Bool)
  | networkRequest (params : QueryKey)
  | prefetchStart
  | showMinSearchMessage
  | showError (msg : String)
deriving DecidableEq, Repr

/-- Mutable module-level state touched by `fetchProducts`:
`currentPage`, `prefetchCache`, `isLoadMoreMode`, `currentQueryKey`,
whether `currentSearchAbortController` is non-null, and the product rows
last written into the table body by `populateProductsTable`. -/
structure OrchState where
  currentPage : Nat
  prefetchCache : Option CacheSlot
  isLoadMoreMode : Bool
  controllerSet : Bool
  currentQueryKey : Option QueryKey
  rows : List Product
deriving DecidableEq, Repr

/-- `populateProductsTable(products, append)` on the rows it renders
(lines 317-378): append extends the body, otherwise it replaces it. -/
def populateRows (rows products : List Product) (append : Bool) : List Product :=
  if append then rows ++ products else products

/-- The portion of `fetchProducts` after `await fetch` resolves: the
success branch (lines 233-268), the catch branch (lines 270-281) and the
finally branch (lines 282-284).  An `AbortError` returns silently; any
other failure hides the loading indicator and writes an inline error into
the table body. -/
def handleFetchOutcome (st : OrchState) (net : NetOutcome) : OrchState × List Effect :=
  match net with
  | .success data =>
      let products := data.products
      match data.total with
      | none =>
          -- lines 241-253: Load More pattern.  NOTE: `isLoadMoreMode` is
          -- assigned `true` (line 243) before `shouldAppend` reads it
          -- (line 246), so the `&& isLoadMoreMode` conjunct always sees
          -- `true` there.
          let st1 := { st with isLoadMoreMode := true }
          let hasMore := decide (products.length = itemsPerPage)
          let shouldAppend := decide (1 < st1.currentPage) && st1.isLoadMoreMode
          let st2 := { st1 with rows := populateRows st1.rows products shouldAppend,
                                controllerSet := false }
          (st2, [.render products shouldAppend, .renderPagination none hasMore]
              ++ (if hasMore then [.prefetchStart] else []) ++ [.hideLoading])
      | some totalItems =>
          -- lines 254-266: standard pagination, always replace.
          let st1 := { st with isLoadMoreMode := false }
          let totalPages := ceilDiv totalItems itemsPerPage
          let hasMore := decide (st1.currentPage < totalPages)
          let st2 := { st1 with rows := populateRows st1.rows products false,
                                controllerSet := false }
          (st2, [.render products false, .renderPagination (some totalPages) hasMore]
              ++ (if hasMore then [.prefetchStart] else []) ++ [.hideLoading])
  | .aborted =>
      -- lines 272-275: superseded request, swallowed silently.
      ({ st with controllerSet := false }, [])
  | .httpError status =>
      -- line 229-231 throw, caught at 277-281.
      ({ st with controllerSet := false },
       [.hideLoading,
        .showError ("Failed to fetch products: HTTP error! status: " ++ toString status)])
  | .transportError msg =>
      ({ st with controllerSet := false },
       [.hideLoading, .showError ("Failed to fetch products: " ++ msg)])

/-- The non-cache-hit remainder of `fetchProducts` (lines 184-285):
record `currentQueryKey`, short-circuit on a too-short search term
(lines 188-200), otherwise issue the network request (the params built at
lines 203-216 coincide with `getQueryKey(currentPage)` since both read the
same DOM values) and handle its outcome. -/
def fetchProductsMiss (st : OrchState) (dom : Dom) (showLoading : Bool)
    (net : NetOutcome) : OrchState × List Effect :=
  let searchTerm := jsTrim dom.searchInput
  let queryKey := getQueryKey dom st.currentPage
  let st1 := { st with currentQueryKey := some queryKey }
  if searchTerm ≠ "" ∧ searchTerm.length < MIN_SEARCH_LENGTH then
    (st1, (if showLoading then [Effect.showLoadingEff] else [])
        ++ [.showMinSearchMessage, .hideLoading])
  else
    let preEffs := (if showLoading then [Effect.showLoadingEff] else [])
        ++ [Effect.networkRequest queryKey]
    let (st2, postEffs) := handleFetchOutcome st1 net
    (st2, preEffs ++ postEffs)

/-- Does the prefetch slot's query key match `k` (the guard of line 155)? -/
def cacheMatches (slot : Option CacheSlot) (k : QueryKey) : Bool :=
  match slot with
  | some s => decide (s.queryKey = k)
  | none => false

/-- `fetchProducts(showLoading, useCache)` (lines 138-285) as one big step.
The prologue aborts the recorded search controller and installs a fresh
one (lines 139-145); a matching prefetch slot is consumed (lines 153-182):
its data is rendered, the slot is nulled, a background prefetch of the
next page is started, and the function returns without any network
request.  Otherwise execution continues in `fetchProductsMiss`. -/
def fetchProducts (st : OrchState) (dom : Dom) (showLoading useCache : Bool)
    (net : NetOutcome) : OrchState × List Effect :=
  let abortEffs := if st.controllerSet then [Effect.abortSearch] else []
  let st0 := { st with controllerSet := true }
  let queryKey := getQueryKey dom st0.currentPage
  match st0.prefetchCache with
  | some slot =>
      if useCache && decide (slot.queryKey = queryKey) then
        let data := slot.data
        let st1 := { st0 with prefetchCache := none }
        match data.total with
        | none =>
            let st2 := { st1 with isLoadMoreMode := true }
            let hasMore := decide (data.products.length = itemsPerPage)
            let shouldAppend := decide (1 < st2.currentPage) && st2.isLoadMoreMode
            let st3 := { st2 with rows := populateRows st2.rows data.products shouldAppend }
            (st3, abortEffs
                ++ [.render data.products shouldAppend, .renderPagination none hasMore,
                    .prefetchStart])
        | some totalItems =>
            let st2 := { st1 with isLoadMoreMode := false }
            let totalPages := ceilDiv totalItems itemsPerPage
            let hasMore := decide (st2.currentPage < totalPages)
            let st3 := { st2 with rows := populateRows st2.rows data.products false }
            (st3, abortEffs
                ++ [.render data.products false,
                    .renderPagination (some totalPages) hasMore, .prefetchStart])
      else
        let (st', effs) := fetchProductsMiss st0 dom showLoading net
        (st', abortEffs ++ effs)
  | none =>
      let (st', effs) := fetchProductsMiss st0 dom showLoading net
      (st', abortEffs ++ effs)

/-- Is an effect an authoritative network request? -/
def Effect.isNetworkRequest : Effect → Bool
  | .networkRequest _ => true
  | _ => false

/-- Number of authoritative network requests in an effect list. -/
def networkRequestCount (effs : List Effect) : Nat :=
  (effs.filter Effect.isNetworkRequest).length

/-! ## Debounce Scheduler and filter-change handlers (lines 617-682)

`debouncedSearch` runs on every `input` event of the search box; the
`search-type-filter` and `status-filter` `change` handlers fire
immediately.  We model the scheduler state, the synchronous actions each
handler performs (in program order) and a timed trace semantics in which
a pending timer fires exactly at its scheduled instant unless a later
keystroke cancels it first. -/

/-- Scheduler-level state: the pending debounce timer (as its absolute
fire time), plus the module variables the handlers touch.  `prefetchLive`
records whether `prefetchAbortController` is non-null. -/
structure SchedState where
  timer : Option Nat
  page : Nat
  cache : Option CacheSlot
  prefetchLive : Bool
  loadMore : Bool
  dom : Dom
deriving DecidableEq, Repr

/-- Synchronous actions of the scheduler-level handlers, in program
order.  `resolve d s` is a call `fetchProducts(showLoading = s)` issued
while the DOM holds `d`. -/
inductive Act
  | clearTimer
  | resetPage
  | clearCache
  | abortPrefetch
  | startTimer (fireAt : Nat)
  | resolve (d : Dom) (showLoading : Bool)
deriving DecidableEq, Repr

/-- `debouncedSearch()` run at time `t` after a keystroke leaves the
search box holding `d` (lines 618-641): cancel a pending timer, reset to
page 1, null the prefetch slot, abort a live prefetch, leave Load More
mode, and schedule `fetchProducts(true)` for `t + 400`. -/
def keyStep (st : SchedState) (t : Nat) (d : Dom) : SchedState × List Act :=
  ({ st with timer := some (t + SEARCH_DEBOUNCE_MS), page := 1, cache := none,
             loadMore := false, dom := d },
   (if st.timer.isSome then [Act.clearTimer] else [])
     ++ [Act.resetPage, Act.clearCache]
     ++ (if st.prefetchLive then [Act.abortPrefetch] else [])
     ++ [Act.startTimer (t + SEARCH_DEBOUNCE_MS)])

/-- The debounce timer firing at time `t` (lines 637-640): call
`fetchProducts(true)` with the DOM as it stands now, then null the timer
handle. -/
def fireStep (st : SchedState) : SchedState × List Act :=
  ({ st with timer := none }, [Act.resolve st.dom true])

/-- The `search-type-filter` `change` handler (lines 649-664): reset to
page 1, cancel a pending debounce, null the slot, abort a live prefetch,
leave Load More mode and call `fetchProducts(true)` immediately.  The DOM
holds `d` after the change. -/
def searchTypeChange (st : SchedState) (d : Dom) : SchedState × List Act :=
  ({ st with page := 1, timer := none, cache := none, loadMore := false, dom := d },
   [Act.resetPage]
     ++ (if st.timer.isSome then [Act.clearTimer] else [])
     ++ [Act.clearCache]
     ++ (if st.prefetchLive then [Act.abortPrefetch] else [])
     ++ [Act.resolve d true])

/-- The `status-filter` `change` handler (lines 667-682), identical in
structure to the search-type handler. -/
def statusChange (st : SchedState) (d : Dom) : SchedState × List Act :=
  ({ st with page := 1, timer := none, cache := none, loadMore := false, dom := d },
   [Act.resetPage]
     ++ (if st.timer.isSome then [Act.clearTimer] else [])
     ++ [Act.clearCache]
     ++ (if st.prefetchLive then [Act.abortPrefetch] else [])
     ++ [Act.resolve d true])

/-- Scheduler-level events: a search keystroke at time `t` leaving the
input holding `d`, or the debounce timer firing at time `t`. -/
inductive UiEvent
  | key (t : Nat) (d : Dom)
  | fire (t : Nat)
deriving DecidableEq, Repr

/-- The search keystrokes of an event list, as `(time, dom)` pairs. -/
def keysOf : List UiEvent → List (Nat × Dom)
  | [] => []
  | .key t d :: evs => (t, d) :: keysOf evs
  | .fire _ :: evs => keysOf evs

/-- The `resolve` actions of an action list. -/
def resolvesOf : List Act → List (Dom × Bool)
  | [] => []
  | .resolve d s :: acts => (d, s) :: resolvesOf acts
  | _ :: acts => resolvesOf acts

/-- Timed executions of the debounce scheduler.  `Run now st evs acts st'`
holds when, starting at clock `now` in state `st`, the strictly
time-ordered events `evs` are a possible complete behaviour of the
browser event loop: a `fire t` occurs exactly when the pending timer is
scheduled for `t`, a keystroke can occur only strictly before a pending
timer's fire time (otherwise the timer would have fired first), and the
run ends with no timer pending.  `acts` collects every handler action. -/
inductive Run : Nat → SchedState → List UiEvent → List Act → SchedState → Prop
  | nil {now : Nat} {st : SchedState} (hdone : st.timer = none) :
      Run now st [] [] st
  | key {now t : Nat} {d : Dom} {st st' : SchedState} {evs : List UiEvent}
      {acts : List Act}
      (hord : now < t)
      (hbefore : st.timer = none ∨ ∃ u, st.timer = some u ∧ t < u)
      (hrest : Run t (keyStep st t d).1 evs acts st') :
      Run now st (.key t d :: evs) ((keyStep st t d).2 ++ acts) st'
  | fire {now t : Nat} {st st' : SchedState} {evs : List UiEvent}
      {acts : List Act}
      (hord : now < t)
      (hdue : st.timer = some t)
      (hrest : Run t (fireStep st).1 evs acts st') :
      Run now st (.fire t :: evs) ((fireStep st).2 ++ acts) st'

/-! ## Interleaved authoritative requests (lines 138-145 and 282-284)

`fetchProducts` is an `async` function: between aborting the previous
controller and its own settlement other `fetchProducts` calls can run.
JavaScript executes each segment between `await`s atomically, so we model
the authoritative request lifecycle as a trace of atomic events over the
module variable `currentSearchAbortController` (tokens are numbered in
creation order).  Crucially, a `return` inside `catch` still runs the
`finally` block, so the settlement of an *aborted* request also assigns
`currentSearchAbortController = null` (lines 282-284) — even when the
variable currently holds the controller of a newer pending request. -/

/-- State of the authoritative-request lifecycle.  `controller` is the
token recorded in `currentSearchAbortController`; `pending` are issued,
not-yet-settled requests; `aborted` are tokens whose abort was
signalled. -/
structure AuthState where
  controller : Option Nat
  pending : List Nat
  aborted : List Nat
  next : Nat
deriving DecidableEq, Repr

/-- Atomic events of the authoritative lifecycle: a `fetchProducts` call
reaching its network request (prologue lines 139-145 plus issuing the
fetch), and the three ways a suspended call settles (each running the
`finally` of lines 282-284). -/
inductive AuthEvent
  | call
  | settleAborted (t : Nat)
  | settleOk (t : Nat)
  | settleFail (t : Nat)
deriving DecidableEq, Repr

def authStep (st : AuthState) : AuthEvent → AuthState
  | .call =>
      let aborted' := match st.controller with
        | some t => t :: st.aborted
        | none => st.aborted
      { controller := some st.next, pending := st.next :: st.pending,
        aborted := aborted', next := st.next + 1 }
  | .settleAborted t =>
      { st with pending := st.pending.erase t, controller := none }
  | .settleOk t =>
      { st with pending := st.pending.erase t, controller := none }
  | .settleFail t =>
      { st with pending := st.pending.erase t, controller := none }

def authRun (st : AuthState) : List AuthEvent → AuthState
  | [] => st
  | e :: es => authRun (authStep st e) es

/-- A trace is valid when every settlement concerns a pending request and
matches its abort status: an `AbortError` settlement happens exactly for
aborted requests, a success/failure settlement only for un-aborted ones. -/
def validAuthTrace (st : AuthState) : List AuthEvent → Bool
  | [] => true
  | .call :: es => validAuthTrace (authStep st .call) es
  | .settleAborted t :: es =>
      decide (t ∈ st.pending) && decide (t ∈ st.aborted)
        && validAuthTrace (authStep st (.settleAborted t)) es
  | .settleOk t :: es =>
      decide (t ∈ st.pending) && !decide (t ∈ st.aborted)
        && validAuthTrace (authStep st (.settleOk t)) es
  | .settleFail t :: es =>
      decide (t ∈ st.pending) && !decide (t ∈ st.aborted)
        && validAuthTrace (authStep st (.settleFail t)) es

def authInit : AuthState := ⟨none, [], [], 0⟩

/-- Authoritative requests in flight whose abort was never signalled. -/
def liveAuth (st : AuthState) : List Nat :=
  st.pending.filter (fun t => !decide (t ∈ st.aborted))

/-! ## Pagination page-window computation (lines 412-457)

The numbered-page layout of `renderPagination` in Bounded mode: page 1, a
leading ellipsis when the window is detached from page 1, the clamped
window, a trailing ellipsis when the window is detached from the last
page, the last page, then de-duplication via `[...new Set(pagesToShow)]`
(which keeps the *first* occurrence of every element — including the
first `'...'`). -/

/-- An entry of the pagination strip: a page number or an ellipsis. -/
inductive PageItem
  | pageNo (n : Nat)
  | dots
deriving DecidableEq, Repr

/-- `[lo, lo+1, ..., hi]` (empty when `hi < lo`), the JS
`for (let i = lo; i <= hi; i++)` loop. -/
def rangeFromTo (lo hi : Nat) : List Nat :=
  (List.range (hi + 1 - lo)).map (lo + ·)

/-- The `pagesToShow` array (lines 431-454).  JS arithmetic on possibly
negative intermediate values agrees with truncated `Nat` subtraction in
every guard used here. -/
def pagesToShow (totalPages currentPage : Nat) : List PageItem :=
  [PageItem.pageNo 1]
    ++ (if 2 < currentPage - windowSize then [PageItem.dots] else [])
    ++ ((rangeFromTo (max 2 (currentPage - windowSize))
          (min (totalPages - 1) (currentPage + windowSize))).map PageItem.pageNo)
    ++ (if currentPage + windowSize < totalPages - 1 then [PageItem.dots] else [])
    ++ (if 1 < totalPages then [PageItem.pageNo totalPages] else [])

/-- `[...new Set(xs)]`: first occurrences in insertion order. -/
def jsSetDedupe (xs : List PageItem) : List PageItem :=
  xs.foldl (fun acc x => if x ∈ acc then acc else acc ++ [x]) []

/-- The rendered page strip in Bounded mode (lines 412-457): nothing when
`totalPages ≤ 1`, otherwise the de-duplicated `pagesToShow`. -/
def renderPaginationItems (totalPages currentPage : Nat) : List PageItem :=
  if totalPages ≤ 1 then [] else jsSetDedupe (pagesToShow totalPages currentPage)

/-! ## Progress Synchronizer (upload-form submit handler, lines 862-948)

Once a job's progress stream is opened, a `setInterval` ticks every 2 s
and each stream message may also trigger a refresh; both paths share the
`lastProductRefresh` timestamp.  A qualifying tick nulls `prefetchCache`
and calls `fetchProducts(false, false)`. -/

/-- Effects of the progress-synchronizer handlers. -/
inductive ProgEffect
  | clearCache
  | fetchCall (showLoading useCache : Bool)
  | closeStream
deriving DecidableEq, Repr

/-- State shared by the interval handler and `eventSource.onmessage`:
the rate-limit timestamp, whether the interval/stream are still running,
and (for specification purposes) the log of forced refreshes, newest
first, tagged `true` when caused by the interval handler. -/
structure ProgState where
  lastProductRefresh : Nat
  active : Bool
  log : List (Nat × Bool)
deriving DecidableEq, Repr

def progInit : ProgState := ⟨0, true, []⟩

/-- Events seen by the synchronizer: an interval tick at wall-clock time
`now`, or a progress message with its parsed `status` and `progress`. -/
inductive ProgEvent
  | intervalTick (now : Nat)
  | message (now : Nat) (status : String) (progress : Nat)
deriving DecidableEq, Repr

/-- One synchronizer event.  The interval handler (lines 869-876)
refreshes when at least `PRODUCT_REFRESH_INTERVAL` ms passed since the
last refresh.  `onmessage` (lines 878-941) refreshes when the status is
`processing` with positive progress and at least 1000 ms passed; on
`complete` it stops the interval, closes the stream and issues one final
un-rate-limited `fetchProducts()` (default arguments, line 920); on
`failed` it only stops.  Nat subtraction agrees with the JS guards since
a non-positive difference also fails them. -/
def progStep (st : ProgState) : ProgEvent → ProgState × List ProgEffect
  | .intervalTick now =>
      if st.active ∧ PRODUCT_REFRESH_INTERVAL ≤ now - st.lastProductRefresh then
        ({ st with lastProductRefresh := now, log := (now, true) :: st.log },
         [.clearCache, .fetchCall false false])
      else (st, [])
  | .message now status progress =>
      if st.active then
        let (st1, effs1) :=
          if status = "processing" ∧ 0 < progress
              ∧ 1000 ≤ now - st.lastProductRefresh then
            ({ st with lastProductRefresh := now, log := (now, false) :: st.log },
             [ProgEffect.clearCache, ProgEffect.fetchCall false false])
          else (st, [])
        if status = "complete" then
          ({ st1 with active := false },
           effs1 ++ [.closeStream, .clearCache, .fetchCall true true])
        else if status = "failed" then
          ({ st1 with active := false }, effs1 ++ [.closeStream])
        else (st1, effs1)
      else (st, [])

def progRun (st : ProgState) : List ProgEvent → ProgState
  | [] => st
  | e :: es => progRun (progStep st e).1 es

/-- Rate-limit discipline between two consecutive logged refreshes
(`a` more recent than `b`): at least 1000 ms apart always, and at least
2000 ms apart when the more recent one came from the interval handler. -/
def refreshGapOk (a b : Nat × Bool) : Prop :=
  b.1 + 1000 ≤ a.1 ∧ (a.2 = true → b.1 + PRODUCT_REFRESH_INTERVAL ≤ a.1)

/-! ## Table rendering and HTML escaping (`populateProductsTable`,
lines 317-378)

The description is escaped by five chained global single-character
`String.replace` calls (`&` first), the escaped text is interpolated into
the row HTML, while the click handler of the description cell shows the
*original* description in the modal.  `sku` and `name` are interpolated
unescaped. -/

/-- JS `String.replace(/c/g, repl)` for a single-character pattern, on
the character list of the string. -/
def replaceAllChar (c : Char) (repl : List Char) : List Char → List Char
  | [] => []
  | x :: xs => (if x = c then repl else [x]) ++ replaceAllChar c repl xs

/-- The HTML-entity escaping chain of lines 339-344, `&` replaced first. -/
def escapeHtmlChain (s : List Char) : List Char :=
  replaceAllChar (Char.ofNat 39) "&#039;".data
    (replaceAllChar (Char.ofNat 34) "&quot;".data
      (replaceAllChar '>' "&gt;".data
        (replaceAllChar '<' "&lt;".data
          (replaceAllChar '&' "&amp;".data s))))

/-- The single-pass entity map the escaping is claimed to implement:
each special character becomes its entity, everything else is kept. -/
def escapeChar (c : Char) : List Char :=
  if c = '&' then "&amp;".data
  else if c = '<' then "&lt;".data
  else if c = '>' then "&gt;".data
  else if c = Char.ofNat 34 then "&quot;".data
  else if c = Char.ofNat 39 then "&#039;".data
  else [c]

/-- A rendered table row (lines 335-366): the four data cells as
interpolated into `row.innerHTML`, and the text the description modal
would show when the cell is clicked. -/
structure RenderedRow where
  skuCell : String
  nameCell : String
  descriptionCell : String
  activeCell : String
  modalText : String
deriving DecidableEq, Repr

/-- One iteration of the `products.forEach` loop (lines 335-366):
`description` defaults to the empty string, the description cell gets the
escaped text, the modal handler captures the original description. -/
def renderRow (p : Product) : RenderedRow :=
  let description := p.description.getD ""
  { skuCell := p.sku
    nameCell := p.name
    descriptionCell := String.mk (escapeHtmlChain description.data)
    activeCell := if p.active then "Yes" else "No"
    modalText := description }

/-! ## Helper lemmas -/

theorem replaceAllChar_append (c : Char) (repl a b : List Char) :
    replaceAllChar c repl (a ++ b) =
      replaceAllChar c repl a ++ replaceAllChar c repl b := by
  induction a with
  | nil => rfl
  | cons x xs ih => simp [replaceAllChar, ih]

theorem escapeHtmlChain_append (a b : List Char) :
    escapeHtmlChain (a ++ b) = escapeHtmlChain a ++ escapeHtmlChain b := by
  simp [escapeHtmlChain, replaceAllChar_append]

theorem escapeHtmlChain_single (x : Char) :
    escapeHtmlChain [x] = escapeChar x := by
  by_cases h1 : x = '&'
  · subst h1; rfl
  by_cases h2 : x = '<'
  · subst h2; rfl
  by_cases h3 : x = '>'
  · subst h3; rfl
  by_cases h4 : x = Char.ofNat 34
  · subst h4; rfl
  by_cases h5 : x = Char.ofNat 39
  · subst h5; rfl
  simp [escapeHtmlChain, replaceAllChar, escapeChar, h1, h2, h3, h4, h5]

theorem escapeHtmlChain_eq_flatten (s : List Char) :
    escapeHtmlChain s = (s.map escapeChar).flatten := by
  induction s with
  | nil => rfl
  | cons x xs ih =>
      have : (x :: xs) = [x] ++ xs := rfl
      rw [this, escapeHtmlChain_append, escapeHtmlChain_single]
      simp [ih]

/-! ## Claim theorems -/

/-- Claim C10: for every product rendered into the table, the description
text inserted into the row's HTML equals the original description with
`&`, `<`, `>`, `"` and the apostrophe replaced by their HTML entities
(ampersand replaced first, so the chained replacement coincides with the
single-pass entity map and no entity is double-escaped), while the
description modal shown on click displays the original unescaped text;
this escaping applies to the description field only, not to sku or
name. -/
theorem C10_description_escaping (p : Product) :
    (renderRow p).descriptionCell =
      String.mk (((p.description.getD "").data.map escapeChar).flatten)
    ∧ (renderRow p).modalText = p.description.getD ""
    ∧ (renderRow p).skuCell = p.sku
    ∧ (renderRow p).nameCell = p.name := by
  refine ⟨?_, rfl, rfl, rfl⟩
  simp [renderRow, escapeHtmlChain_eq_flatten]

/-- Claim C6 (code bug): for `totalPages = 10`, `currentPage = 5` the
claim (and the rendering sketch in the code's own comment at lines
381-383) expects `[1, '...', 3, 4, 5, 6, 7, '...', 10]`, but
`[...new Set(pagesToShow)]` also de-duplicates the two `'...'` string
entries, so the trailing ellipsis is dropped and the code renders
`[1, '...', 3, 4, 5, 6, 7, 10]`. -/
theorem C6_second_ellipsis_dropped :
    renderPaginationItems 10 5 =
      [.pageNo 1, .dots, .pageNo 3, .pageNo 4, .pageNo 5, .pageNo 6, .pageNo 7,
       .pageNo 10]
    ∧ renderPaginationItems 10 5 ≠
      [.pageNo 1, .dots, .pageNo 3, .pageNo 4, .pageNo 5, .pageNo 6, .pageNo 7,
       .dots, .pageNo 10] := by
  constructor
  · rfl
  · decide

/-- The interleaving refuting claim C1: request 0 is issued, request 1
supersedes it (signalling 0's token), the aborted request 0 then settles —
its `finally` (lines 282-284) nulls `currentSearchAbortController` even
though that variable now holds request 1's controller — and a further
`fetchProducts` call therefore finds `null`, cancels nothing, and issues
request 2 while request 1 is still pending un-aborted. -/
def c1Trace : List AuthEvent := [.call, .call, .settleAborted 0, .call]

/-- Claim C1 (code bug): the claim says every previously issued,
still-unresolved authoritative request is cancelled before a new one is
issued, so at most one authoritative query is ever awaiting resolution.
On the valid event trace `c1Trace` the code reaches a state with two
in-flight authoritative requests (tokens 1 and 2) neither of which was
ever aborted. -/
theorem C1_two_live_authoritative_requests :
    validAuthTrace authInit c1Trace = true
    ∧ liveAuth (authRun authInit c1Trace) = [2, 1]
    ∧ (liveAuth (authRun authInit c1Trace)).length = 2 := by
  decide

theorem networkRequestCount_append (a b : List Effect) :
    networkRequestCount (a ++ b) = networkRequestCount a + networkRequestCount b := by
  simp [networkRequestCount, List.filter_append]

theorem networkRequestCount_handleFetchOutcome (st : OrchState) (net : NetOutcome) :
    networkRequestCount (handleFetchOutcome st net).2 = 0 := by
  cases net with
  | success data =>
      cases htot : data.total with
      | none =>
          simp only [handleFetchOutcome, htot]
          split <;> rfl
      | some n =>
          simp only [handleFetchOutcome, htot]
          split <;> rfl
  | httpError s => rfl
  | aborted => rfl
  | transportError m => rfl

/-- Claim C3: whenever `fetchProducts` runs with `useCache = true` and the
prefetch slot's query signature equals the signature of the requested
page, the result is served from the slot with no authoritative network
request, the slot is empty immediately after being consumed, and a
background prefetch of the next page is still triggered before
returning. -/
theorem C3_cache_hit_consumes_slot (st : OrchState) (dom : Dom)
    (showLoading : Bool) (net : NetOutcome) (slot : CacheSlot)
    (hslot : st.prefetchCache = some slot)
    (hmatch : slot.queryKey = getQueryKey dom st.currentPage) :
    (∀ p, Effect.networkRequest p ∉ (fetchProducts st dom showLoading true net).2)
    ∧ (fetchProducts st dom showLoading true net).1.prefetchCache = none
    ∧ Effect.prefetchStart ∈ (fetchProducts st dom showLoading true net).2
    ∧ ∃ append, Effect.render slot.data.products append
        ∈ (fetchProducts st dom showLoading true net).2 := by
  unfold fetchProducts
  simp only [hslot, hmatch, decide_eq_true_eq, Bool.true_and, decide_True, if_true]
  cases htot : slot.data.total with
  | none =>
      simp only [htot]
      by_cases hc : st.controllerSet <;> simp [hc]
  | some n =>
      simp only [htot]
      by_cases hc : st.controllerSet <;> simp [hc]

/-- Concrete instance for the C3 witness: browse-all page 1 with a
matching prefetched slot. -/
def c3Dom : Dom := ⟨"", "", ""⟩

def c3Product : Product := ⟨7, "SKU7", "Name7", none, true⟩

def c3Slot : CacheSlot := ⟨getQueryKey c3Dom 1, ⟨some 5, [c3Product]⟩, 1⟩

def c3St : OrchState := ⟨1, some c3Slot, false, false, none, []⟩

theorem C3_cache_hit_consumes_slot_witness :
    (∀ p, Effect.networkRequest p ∉ (fetchProducts c3St c3Dom true true .aborted).2)
    ∧ (fetchProducts c3St c3Dom true true .aborted).1.prefetchCache = none
    ∧ Effect.prefetchStart ∈ (fetchProducts c3St c3Dom true true .aborted).2
    ∧ ∃ append, Effect.render c3Slot.data.products append
        ∈ (fetchProducts c3St c3Dom true true .aborted).2 :=
  C3_cache_hit_consumes_slot c3St c3Dom true .aborted c3Slot rfl rfl

/-- Concrete refuting instance for claim C5: the view is in Bounded mode
(`isLoadMoreMode = false`) on page 2 when a refresh resolves with an
unknown total. -/
def c5P1 : Product := ⟨1, "SKU1", "NameOne", none, true⟩

def c5P2 : Product := ⟨2, "SKU2", "NameTwo", none, true⟩

def c5St : OrchState := ⟨2, none, false, false, none, [c5P1]⟩

def c5Dom : Dom := ⟨"", "", ""⟩

def c5Net : NetOutcome := .success ⟨none, [c5P2]⟩

/-- Counterexample to claim C5: with the view in Bounded mode
(`isLoadMoreMode = false`) on page 2 and a response whose `totalCount` is
unknown, the code switches to Unbounded mode and *appends* (render flag
`true`, rows grow) even though the request was not issued while already
in Unbounded mode — because line 243 sets `isLoadMoreMode = true` before
line 246 reads it, the `&& isLoadMoreMode` conjunct of `shouldAppend` is
always `true`, and a Bounded-to-Unbounded switch does not force a
replace. -/
theorem C5_counterexample_bounded_switch_appends :
    c5St.isLoadMoreMode = false
    ∧ 1 < c5St.currentPage
    ∧ Effect.render [c5P2] true ∈ (fetchProducts c5St c5Dom false false c5Net).2
    ∧ (fetchProducts c5St c5Dom false false c5Net).1.rows = [c5P1, c5P2]
    ∧ (fetchProducts c5St c5Dom false false c5Net).1.isLoadMoreMode = true := by
  decide

/-- Claim C5 as amended: a known `totalCount` yields Bounded mode with
`totalPages = ceil(totalCount / pageSize)` and a full replace (so an
Unbounded-to-Bounded switch always replaces); an unknown `totalCount`
yields Unbounded mode with `hasMore` true exactly when the page is full,
and rows are appended exactly when `page > 1` — regardless of the
previous mode, because the code sets the Unbounded flag before testing
it — and replaced otherwise. -/
theorem C5_mode_selection_amended (st : OrchState) (data : PageData) :
    (∀ n, data.total = some n →
      (handleFetchOutcome st (.success data)).1.isLoadMoreMode = false
      ∧ (handleFetchOutcome st (.success data)).1.rows = data.products
      ∧ Effect.render data.products false ∈ (handleFetchOutcome st (.success data)).2
      ∧ Effect.renderPagination (some (ceilDiv n itemsPerPage))
          (decide (st.currentPage < ceilDiv n itemsPerPage))
          ∈ (handleFetchOutcome st (.success data)).2)
    ∧ (data.total = none →
      (handleFetchOutcome st (.success data)).1.isLoadMoreMode = true
      ∧ (handleFetchOutcome st (.success data)).1.rows =
          (if 1 < st.currentPage then st.rows ++ data.products else data.products)
      ∧ Effect.render data.products (decide (1 < st.currentPage))
          ∈ (handleFetchOutcome st (.success data)).2
      ∧ Effect.renderPagination none (decide (data.products.length = itemsPerPage))
          ∈ (handleFetchOutcome st (.success data)).2) := by
  constructor
  · intro n htot
    refine ⟨?_, ?_, ?_, ?_⟩
    · simp [handleFetchOutcome, htot]
    · simp [handleFetchOutcome, htot, populateRows]
    · simp only [handleFetchOutcome, htot]
      split <;> simp
    · simp only [handleFetchOutcome, htot]
      split <;> simp
  · intro htot
    refine ⟨?_, ?_, ?_, ?_⟩
    · simp [handleFetchOutcome, htot]
    · simp only [handleFetchOutcome, htot, populateRows, Bool.and_true]
      by_cases hp : 1 < st.currentPage <;> simp [hp]
    · simp only [handleFetchOutcome, htot, Bool.and_true]
      split <;> simp
    · simp only [handleFetchOutcome, htot]
      split <;> simp

theorem C5_mode_selection_amended_witness :
    (handleFetchOutcome c5St (.success ⟨none, [c5P2]⟩)).1.isLoadMoreMode = true
    ∧ (handleFetchOutcome c5St (.success ⟨none, [c5P2]⟩)).1.rows =
        (if 1 < c5St.currentPage then c5St.rows ++ [c5P2] else [c5P2])
    ∧ Effect.render [c5P2] (decide (1 < c5St.currentPage))
        ∈ (handleFetchOutcome c5St (.success ⟨none, [c5P2]⟩)).2
    ∧ Effect.renderPagination none (decide (([c5P2] : List Product).length = itemsPerPage))
        ∈ (handleFetchOutcome c5St (.success ⟨none, [c5P2]⟩)).2 :=
  (C5_mode_selection_amended c5St ⟨none, [c5P2]⟩).2 rfl

/-- Claim C7: when the trimmed search term is non-empty and shorter than
2 characters, `fetchProducts` (past the cache step, which precedes
validation in both the spec's algorithm and the code) short-circuits: no
network request is issued and the guidance message asking for at least 2
characters is shown; and with the term `"ab"` (and the slot cleared, as
the preceding keystroke guarantees) exactly one network request is
issued, carrying `search=ab`. -/
theorem C7_min_length_short_circuit :
    (∀ (st : OrchState) (dom : Dom) (showLoading useCache : Bool) (net : NetOutcome),
      cacheMatches st.prefetchCache (getQueryKey dom st.currentPage) = false →
      jsTrim dom.searchInput ≠ "" →
      (jsTrim dom.searchInput).length < MIN_SEARCH_LENGTH →
      (∀ p, Effect.networkRequest p ∉ (fetchProducts st dom showLoading useCache net).2)
      ∧ Effect.showMinSearchMessage ∈ (fetchProducts st dom showLoading useCache net).2)
    ∧ (∀ (st : OrchState) (dom : Dom) (showLoading : Bool) (net : NetOutcome),
      st.prefetchCache = none →
      jsTrim dom.searchInput = "ab" →
      networkRequestCount (fetchProducts st dom showLoading true net).2 = 1
      ∧ Effect.networkRequest (getQueryKey dom st.currentPage)
          ∈ (fetchProducts st dom showLoading true net).2
      ∧ ("search", "ab") ∈ getQueryKey dom st.currentPage) := by
  constructor
  · intro st dom showLoading useCache net hmiss hne hshort
    have hmain :
        (fetchProducts st dom showLoading useCache net).2 =
          (if st.controllerSet then [Effect.abortSearch] else [])
            ++ ((if showLoading then [Effect.showLoadingEff] else [])
                ++ [Effect.showMinSearchMessage, Effect.hideLoading]) := by
      unfold fetchProducts fetchProductsMiss
      cases hpc : st.prefetchCache with
      | none => simp [hpc, hne, hshort]
      | some slot =>
          have : decide (slot.queryKey = getQueryKey dom st.currentPage) = false := by
            simpa [cacheMatches, hpc] using hmiss
          simp [hpc, this, hne, hshort]
    rw [hmain]
    constructor
    · intro p
      by_cases hc : st.controllerSet <;> by_cases hs : showLoading <;> simp [hc, hs]
    · by_cases hc : st.controllerSet <;> by_cases hs : showLoading <;> simp [hc, hs]
  · intro st dom showLoading net hnone hab
    have hlen : ¬ ((jsTrim dom.searchInput ≠ "")
        ∧ (jsTrim dom.searchInput).length < MIN_SEARCH_LENGTH) := by
      rw [hab]; decide
    have hmain :
        (fetchProducts st dom showLoading true net).2 =
          (if st.controllerSet then [Effect.abortSearch] else [])
            ++ (((if showLoading then [Effect.showLoadingEff] else [])
                  ++ [Effect.networkRequest (getQueryKey dom st.currentPage)])
                ++ (handleFetchOutcome
                      { st with controllerSet := true,
                                currentQueryKey := some (getQueryKey dom st.currentPage) }
                      net).2) := by
      unfold fetchProducts fetchProductsMiss
      simp [hnone, hlen]
    refine ⟨?_, ?_, ?_⟩
    · rw [hmain]
      rw [networkRequestCount_append, networkRequestCount_append,
          networkRequestCount_append, networkRequestCount_handleFetchOutcome]
      by_cases hc : st.controllerSet <;> by_cases hs : showLoading <;>
        simp [hc, hs, networkRequestCount, Effect.isNetworkRequest]
    · rw [hmain]
      by_cases hc : st.controllerSet <;> by_cases hs : showLoading <;> simp [hc, hs]
    · simp [getQueryKey, hab]
      decide

/-- Concrete states for the C7 witness. -/
def c7St : OrchState := ⟨1, none, false, false, none, []⟩

def c7DomA : Dom := ⟨"a", "", ""⟩

def c7DomAB : Dom := ⟨"ab", "", ""⟩

theorem C7_min_length_short_circuit_witness :
    ((∀ p, Effect.networkRequest p ∉ (fetchProducts c7St c7DomA true true .aborted).2)
      ∧ Effect.showMinSearchMessage ∈ (fetchProducts c7St c7DomA true true .aborted).2)
    ∧ (networkRequestCount (fetchProducts c7St c7DomAB true true .aborted).2 = 1
      ∧ Effect.networkRequest (getQueryKey c7DomAB c7St.currentPage)
          ∈ (fetchProducts c7St c7DomAB true true .aborted).2
      ∧ ("search", "ab") ∈ getQueryKey c7DomAB c7St.currentPage) :=
  ⟨C7_min_length_short_circuit.1 c7St c7DomA true true .aborted rfl
      (by decide) (by decide),
   C7_min_length_short_circuit.2 c7St c7DomAB true .aborted rfl (by decide)⟩

/-- Claim C8: a superseded (cancelled) authoritative request's resolution
is swallowed silently — no error message, no render, no mutation of the
visible rows or of the prefetch slot (only the shared controller variable
is cleared by the `finally`) — while a non-cancellation failure (non-2xx
or transport failure) produces exactly the inline error message in the
list area after clearing the loading indicator, also without touching the
rows it replaces or the prefetch slot. -/
theorem C8_superseded_resolution_swallowed :
    (∀ st : OrchState,
      (handleFetchOutcome st .aborted).1.rows = st.rows
      ∧ (handleFetchOutcome st .aborted).1.prefetchCache = st.prefetchCache
      ∧ (handleFetchOutcome st .aborted).2 = [])
    ∧ (∀ (st : OrchState) (status : Nat),
      (handleFetchOutcome st (.httpError status)).1.prefetchCache = st.prefetchCache
      ∧ (handleFetchOutcome st (.httpError status)).2 =
          [.hideLoading,
           .showError ("Failed to fetch products: HTTP error! status: "
             ++ toString status)])
    ∧ (∀ (st : OrchState) (msg : String),
      (handleFetchOutcome st (.transportError msg)).1.prefetchCache = st.prefetchCache
      ∧ (handleFetchOutcome st (.transportError msg)).2 =
          [.hideLoading, .showError ("Failed to fetch products: " ++ msg)]) :=
  ⟨fun _ => ⟨rfl, rfl, rfl⟩, fun _ _ => ⟨rfl, rfl⟩, fun _ _ => ⟨rfl, rfl⟩⟩

/-- Claim C4: each of the three filter-state change handlers (search
keystroke, search-type change, status-filter change) synchronously nulls
the prefetch slot and signals the prefetch abort controller (when one is
registered) strictly before the action that begins the new debounce or
immediate request path — even if no request has fired yet (the handlers
do this unconditionally); and a slot whose query signature differs from
the signature of the current request is never consumed by
`fetchProducts`, which behaves exactly as on a cache miss and leaves the
slot untouched — so no slot filled under the old filter state can be
served after the change. -/
theorem C4_filter_change_invalidates_prefetch :
    (∀ (st : SchedState) (t : Nat) (d : Dom),
      (keyStep st t d).1.cache = none
      ∧ ∃ l, (keyStep st t d).2 = l ++ [Act.startTimer (t + SEARCH_DEBOUNCE_MS)]
          ∧ Act.clearCache ∈ l
          ∧ (st.prefetchLive = true → Act.abortPrefetch ∈ l))
    ∧ (∀ (st : SchedState) (d : Dom),
      (searchTypeChange st d).1.cache = none
      ∧ ∃ l, (searchTypeChange st d).2 = l ++ [Act.resolve d true]
          ∧ Act.clearCache ∈ l
          ∧ (st.prefetchLive = true → Act.abortPrefetch ∈ l))
    ∧ (∀ (st : SchedState) (d : Dom),
      (statusChange st d).1.cache = none
      ∧ ∃ l, (statusChange st d).2 = l ++ [Act.resolve d true]
          ∧ Act.clearCache ∈ l
          ∧ (st.prefetchLive = true → Act.abortPrefetch ∈ l))
    ∧ (∀ (st : OrchState) (dom : Dom) (showLoading useCache : Bool) (net : NetOutcome),
      cacheMatches st.prefetchCache (getQueryKey dom st.currentPage) = false →
      (fetchProducts st dom showLoading useCache net).1.prefetchCache = st.prefetchCache
      ∧ (fetchProducts st dom showLoading useCache net).2 =
          (if st.controllerSet then [Effect.abortSearch] else [])
            ++ (fetchProductsMiss { st with controllerSet := true }
                  dom showLoading net).2) := by
  refine ⟨?_, ?_, ?_, ?_⟩
  · intro st t d
    refine ⟨rfl, (if st.timer.isSome then [Act.clearTimer] else [])
        ++ [Act.resetPage, Act.clearCache]
        ++ (if st.prefetchLive then [Act.abortPrefetch] else []), ?_, ?_, ?_⟩
    · simp [keyStep]
    · by_cases ht : st.timer.isSome <;> by_cases hp : st.prefetchLive <;>
        simp [ht, hp]
    · intro hp
      by_cases ht : st.timer.isSome <;> simp [ht, hp]
  · intro st d
    refine ⟨rfl, [Act.resetPage]
        ++ (if st.timer.isSome then [Act.clearTimer] else [])
        ++ [Act.clearCache]
        ++ (if st.prefetchLive then [Act.abortPrefetch] else []), ?_, ?_, ?_⟩
    · simp [searchTypeChange]
    · by_cases ht : st.timer.isSome <;> by_cases hp : st.prefetchLive <;>
        simp [ht, hp]
    · intro hp
      by_cases ht : st.timer.isSome <;> simp [ht, hp]
  · intro st d
    refine ⟨rfl, [Act.resetPage]
        ++ (if st.timer.isSome then [Act.clearTimer] else [])
        ++ [Act.clearCache]
        ++ (if st.prefetchLive then [Act.abortPrefetch] else []), ?_, ?_, ?_⟩
    · simp [statusChange]
    · by_cases ht : st.timer.isSome <;> by_cases hp : st.prefetchLive <;>
        simp [ht, hp]
    · intro hp
      by_cases ht : st.timer.isSome <;> simp [ht, hp]
  · intro st dom showLoading useCache net hmiss
    constructor
    · unfold fetchProducts fetchProductsMiss handleFetchOutcome
      cases hpc : st.prefetchCache with
      | none =>
          simp only [hpc]
          cases net with
          | success data =>
              cases htot : data.total with
              | none => simp only [htot]; split <;> rfl
              | some n => simp only [htot]; split <;> rfl
          | aborted => split <;> rfl
          | httpError s => split <;> rfl
          | transportError m => split <;> rfl
      | some slot =>
          have hdec : decide (slot.queryKey = getQueryKey dom st.currentPage) = false := by
            simpa [cacheMatches, hpc] using hmiss
          simp only [hpc, hdec, Bool.and_false, Bool.false_eq_true, if_false]
          cases net with
          | success data =>
              cases htot : data.total with
              | none => simp only [htot]; split <;> rfl
              | some n => simp only [htot]; split <;> rfl
          | aborted => split <;> rfl
          | httpError s => split <;> rfl
          | transportError m => split <;> rfl
    · unfold fetchProducts
      cases hpc : st.prefetchCache with
      | none => simp only [hpc]
      | some slot =>
          have hdec : decide (slot.queryKey = getQueryKey dom st.currentPage) = false := by
            simpa [cacheMatches, hpc] using hmiss
          simp only [hpc, hdec, Bool.and_false, Bool.false_eq_true, if_false]

/-- Concrete instances for the C4 witness: a pending timer, a live
prefetch and a stale slot whose key cannot match the current page. -/
def c4Slot : CacheSlot := ⟨[("skip", "90"), ("limit", "10")], ⟨some 1, []⟩, 10⟩

def c4Sched : SchedState := ⟨some 500, 3, some c4Slot, true, false, ⟨"", "", ""⟩⟩

def c4Orch : OrchState := ⟨1, some c4Slot, false, true, none, []⟩

def c4Dom : Dom := ⟨"", "", ""⟩

theorem C4_filter_change_invalidates_prefetch_witness :
    (keyStep c4Sched 600 c4Dom).1.cache = none
    ∧ (∃ l, (keyStep c4Sched 600 c4Dom).2
          = l ++ [Act.startTimer (600 + SEARCH_DEBOUNCE_MS)]
        ∧ Act.clearCache ∈ l ∧ (c4Sched.prefetchLive = true → Act.abortPrefetch ∈ l))
    ∧ (searchTypeChange c4Sched c4Dom).1.cache = none
    ∧ (statusChange c4Sched c4Dom).1.cache = none
    ∧ (fetchProducts c4Orch c4Dom true true .aborted).1.prefetchCache = some c4Slot :=
  ⟨(C4_filter_change_invalidates_prefetch.1 c4Sched 600 c4Dom).1,
   (C4_filter_change_invalidates_prefetch.1 c4Sched 600 c4Dom).2,
   (C4_filter_change_invalidates_prefetch.2.1 c4Sched c4Dom).1,
   (C4_filter_change_invalidates_prefetch.2.2.1 c4Sched c4Dom).1,
   (C4_filter_change_invalidates_prefetch.2.2.2 c4Orch c4Dom true true .aborted
      (by decide)).1⟩

/-- Inductive invariant of the progress synchronizer: the refresh log
obeys the rate-limit discipline and its most recent entry carries the
`lastProductRefresh` timestamp. -/
def progInv (st : ProgState) : Prop :=
  List.Chain' refreshGapOk st.log
    ∧ (∀ a ∈ st.log.head?, a.1 = st.lastProductRefresh)

theorem progInv_push (st : ProgState) (now : Nat) (k : Bool)
    (h : progInv st)
    (hgap : st.lastProductRefresh + 1000 ≤ now)
    (hgap2 : k = true → st.lastProductRefresh + PRODUCT_REFRESH_INTERVAL ≤ now) :
    progInv { st with lastProductRefresh := now, log := (now, k) :: st.log } := by
  obtain ⟨hchain, hhead⟩ := h
  refine ⟨?_, ?_⟩
  · cases hlog : st.log with
    | nil => simp
    | cons a rest =>
        have ha : a.1 = st.lastProductRefresh := by
          have := hhead a
          simp [hlog] at this
          exact this
        refine List.Chain'.cons ?_ (hlog ▸ hchain)
        exact ⟨by simp [ha]; omega, fun hk => by simp [ha]; exact ha ▸ hgap2 hk⟩
  · intro a ha
    simp only [List.head?_cons, Option.mem_def, Option.some.injEq] at ha
    subst ha
    rfl

theorem progStep_preserves_inv (st : ProgState) (e : ProgEvent)
    (h : progInv st) : progInv (progStep st e).1 := by
  cases e with
  | intervalTick now =>
      by_cases hcond : st.active = true
          ∧ PRODUCT_REFRESH_INTERVAL ≤ now - st.lastProductRefresh
      · simp only [progStep, if_pos hcond]
        refine progInv_push st now true h ?_ (fun _ => ?_) <;>
          · have h2 := hcond.2
            simp only [PRODUCT_REFRESH_INTERVAL] at h2 ⊢
            omega
      · simp only [progStep, if_neg hcond]
        exact h
  | message now status progress =>
      by_cases hact : st.active = true
      · simp only [progStep, if_pos hact]
        by_cases hcond : status = "processing" ∧ 0 < progress
            ∧ 1000 ≤ now - st.lastProductRefresh
        · simp only [if_pos hcond]
          have hinner : progInv
              { st with lastProductRefresh := now, log := (now, false) :: st.log } := by
            refine progInv_push st now false h ?_ (fun hk => by simp at hk)
            have h2 := hcond.2.2
            omega
          split
          · exact hinner
          · split
            · exact hinner
            · exact hinner
        · simp only [if_neg hcond]
          split
          · exact h
          · split
            · exact h
            · exact h
      · simp only [progStep, if_neg hact]
        exact h

theorem progRun_preserves_inv (evs : List ProgEvent) (st : ProgState)
    (h : progInv st) : progInv (progRun st evs) := by
  induction evs generalizing st with
  | nil => exact h
  | cons e es ih => exact ih _ (progStep_preserves_inv st e h)

/-- Claim C9: while the import job is active, any two consecutive forced
refreshes of the product view are at least 1000 ms apart, and at least
`PRODUCT_REFRESH_INTERVAL` (2000 ms) apart when the later one came from
the baseline interval path (the 1 s floor is only reachable through
`processing` messages with positive progress); and every qualifying
refresh tick first invalidates the prefetch cache and then calls
`fetchProducts(showLoading = false, useCache = false)`. -/
theorem C9_rate_limited_refresh :
    (∀ evs : List ProgEvent, List.Chain' refreshGapOk (progRun progInit evs).log)
    ∧ (∀ (st : ProgState) (now : Nat),
        st.active = true → PRODUCT_REFRESH_INTERVAL ≤ now - st.lastProductRefresh →
        (progStep st (.intervalTick now)).2 =
          [.clearCache, .fetchCall false false])
    ∧ (∀ (st : ProgState) (now progress : Nat),
        st.active = true → 0 < progress → 1000 ≤ now - st.lastProductRefresh →
        (progStep st (.message now "processing" progress)).2 =
          [.clearCache, .fetchCall false false]) := by
  refine ⟨?_, ?_, ?_⟩
  · intro evs
    exact (progRun_preserves_inv evs progInit
      ⟨List.chain'_nil, fun a ha => by simp [progInit] at ha⟩).1
  · intro st now hact hgap
    simp [progStep, hact, hgap]
  · intro st now progress hact hprog hgap
    simp [progStep, hact, hprog, hgap]

theorem C9_rate_limited_refresh_witness :
    List.Chain' refreshGapOk
      (progRun progInit
        [.intervalTick 10000, .message 10500 "processing" 40,
         .intervalTick 12000, .message 13100 "processing" 80]).log
    ∧ (progStep progInit (.intervalTick 10000)).2 =
        [.clearCache, .fetchCall false false]
    ∧ (progStep ⟨10000, true, [(10000, true)]⟩ (.message 11000 "processing" 40)).2 =
        [.clearCache, .fetchCall false false] :=
  ⟨C9_rate_limited_refresh.1 _,
   C9_rate_limited_refresh.2.1 progInit 10000 rfl (by decide),
   C9_rate_limited_refresh.2.2 ⟨10000, true, [(10000, true)]⟩ 11000 40 rfl
     (by decide) (by decide)⟩

/-- The DOM as read when the debounce timer fires: the value left by the
last keystroke of the burst, or `d` when there was no keystroke. -/
def lastDom (d : Dom) : List (Nat × Dom) → Dom
  | [] => d
  | k :: ks => lastDom k.2 ks

/-- The instant the debounce timer fires: 400 ms after the last
keystroke, or the already-scheduled time `f` when there was none. -/
def lastFireTime (f : Nat) : List (Nat × Dom) → Nat
  | [] => f
  | k :: ks => lastFireTime (k.1 + SEARCH_DEBOUNCE_MS) ks

theorem lastDom_cons (d : Dom) (k : Nat × Dom) (ks : List (Nat × Dom)) :
    lastDom d (k :: ks) = lastDom k.2 ks := rfl

theorem lastFireTime_cons (f : Nat) (k : Nat × Dom) (ks : List (Nat × Dom)) :
    lastFireTime f (k :: ks) = lastFireTime (k.1 + SEARCH_DEBOUNCE_MS) ks := rfl

theorem resolvesOf_append (a b : List Act) :
    resolvesOf (a ++ b) = resolvesOf a ++ resolvesOf b := by
  induction a with
  | nil => rfl
  | cons x xs ih => cases x <;> simp [resolvesOf, ih]

theorem resolvesOf_keyStep (st : SchedState) (t : Nat) (d : Dom) :
    resolvesOf (keyStep st t d).2 = [] := by
  by_cases ht : st.timer.isSome <;> by_cases hp : st.prefetchLive <;>
    simp [keyStep, ht, hp, resolvesOf, resolvesOf_append]

/-- Along any run, every keystroke happens strictly after the starting
clock. -/
theorem run_keys_after (now : Nat) (st : SchedState) (evs : List UiEvent)
    (acts : List Act) (st' : SchedState) (h : Run now st evs acts st') :
    ∀ k ∈ keysOf evs, now < k.1 := by
  induction h with
  | nil hdone => intro k hk; simp [keysOf] at hk
  | @key now t d st st' evs acts hord hbefore hrest ih =>
      intro k hk
      rcases (by simpa [keysOf] using hk :
          k = (t, d) ∨ k ∈ keysOf evs) with h1 | h1
      · subst h1; exact hord
      · exact Nat.lt_trans hord (ih k h1)
  | @fire now t st st' evs acts hord hdue hrest ih =>
      intro k hk
      exact Nat.lt_trans hord (ih k (by simpa [keysOf] using hk))

/-- A run with no pending timer and no keystrokes is over. -/
theorem run_idle (now : Nat) (st : SchedState) (evs : List UiEvent)
    (acts : List Act) (st' : SchedState) (h : Run now st evs acts st')
    (ht : st.timer = none) (hk : keysOf evs = []) : evs = [] ∧ acts = [] := by
  cases h with
  | nil hdone => exact ⟨rfl, rfl⟩
  | key hord hbefore hrest => simp [keysOf] at hk
  | fire hord hdue hrest => rw [ht] at hdue; cases hdue

/-- Burst continuation: from a state with a timer pending at `f`, if the
remaining keystrokes each arrive within 400 ms of their predecessor (and
the first one before `f`), then the run performs exactly one
`fetchProducts(true)` call — with the DOM of the last keystroke — and
contains the corresponding timer firing. -/
theorem run_pending_burst (now : Nat) (st : SchedState) (evs : List UiEvent)
    (acts : List Act) (st' : SchedState) (h : Run now st evs acts st') :
    ∀ f, st.timer = some f →
    List.Chain' (fun a b => b.1 < a.1 + SEARCH_DEBOUNCE_MS) (keysOf evs) →
    (∀ k ∈ (keysOf evs).head?, k.1 < f) →
    resolvesOf acts = [(lastDom st.dom (keysOf evs), true)]
    ∧ UiEvent.fire (lastFireTime f (keysOf evs)) ∈ evs := by
  induction h with
  | nil hdone => intro f hf; rw [hdone] at hf; cases hf
  | @key now t d st st' evs acts hord hbefore hrest ih =>
      intro f hf hchain hhead
      have hkeys : keysOf (UiEvent.key t d :: evs) = (t, d) :: keysOf evs := rfl
      obtain ⟨hrel, hchain'⟩ :=
        List.chain'_cons'.mp (by simpa [hkeys] using hchain)
      have ih' := ih (t + SEARCH_DEBOUNCE_MS) rfl hchain'
        (fun k hk => hrel k hk)
      constructor
      · rw [resolvesOf_append, resolvesOf_keyStep, List.nil_append, ih'.1,
            hkeys, lastDom_cons]
        rfl
      · rw [hkeys, lastFireTime_cons]
        exact List.mem_cons_of_mem _ ih'.2
  | @fire now t st st' evs acts hord hdue hrest ih =>
      intro f hf hchain hhead
      have htf : t = f := by
        rw [hdue] at hf; exact Option.some.inj hf
      have hkeys : keysOf (UiEvent.fire t :: evs) = keysOf evs := rfl
      have hempty : keysOf evs = [] := by
        cases hks : keysOf evs with
        | nil => rfl
        | cons k ks =>
            have h1 : t < k.1 :=
              run_keys_after _ _ _ _ _ hrest k (by simp [hks])
            have h2 : k.1 < f := hhead k (by simp [hkeys, hks])
            omega
      obtain ⟨hevs, hacts⟩ := run_idle _ _ _ _ _ hrest rfl hempty
      subst hevs; subst hacts
      refine ⟨rfl, ?_⟩
      rw [hkeys, hempty]
      simp [lastFireTime, htf]

/-- With an empty prefetch slot and a term that passes validation,
`fetchProducts` issues exactly one authoritative network request, carrying
the query signature of the current filter state and page. -/
theorem fetchProducts_single_request (st : OrchState) (dom : Dom)
    (showLoading useCache : Bool) (net : NetOutcome)
    (hnone : st.prefetchCache = none)
    (hlen : ¬ (jsTrim dom.searchInput ≠ ""
        ∧ (jsTrim dom.searchInput).length < MIN_SEARCH_LENGTH)) :
    networkRequestCount (fetchProducts st dom showLoading useCache net).2 = 1
    ∧ Effect.networkRequest (getQueryKey dom st.currentPage)
        ∈ (fetchProducts st dom showLoading useCache net).2 := by
  have hmain :
      (fetchProducts st dom showLoading useCache net).2 =
        (if st.controllerSet then [Effect.abortSearch] else [])
          ++ (((if showLoading then [Effect.showLoadingEff] else [])
                ++ [Effect.networkRequest (getQueryKey dom st.currentPage)])
              ++ (handleFetchOutcome
                    { st with controllerSet := true,
                              currentQueryKey := some (getQueryKey dom st.currentPage) }
                    net).2) := by
    unfold fetchProducts fetchProductsMiss
    simp [hnone, hlen]
  constructor
  · rw [hmain, networkRequestCount_append, networkRequestCount_append,
        networkRequestCount_append, networkRequestCount_handleFetchOutcome]
    by_cases hc : st.controllerSet <;> by_cases hs : showLoading <;>
      simp [hc, hs, networkRequestCount, Effect.isNetworkRequest]
  · rw [hmain]
    by_cases hc : st.controllerSet <;> by_cases hs : showLoading <;> simp [hc, hs]

/-- Claim C2: for any burst of one or more search keystrokes each
arriving within 400 ms of the previous one, the scheduler performs
exactly one `fetchProducts(showLoading = true)` call, at 400 ms after the
last keystroke, reading the filter state as it stands when the timer
fires (the last keystroke's DOM), not the state at the first keystroke;
each keystroke cancels the pending timer, invalidates the prefetch slot,
aborts a live prefetch and resets the page to 1 before starting its new
400 ms timer; and the fired call — its slot having been cleared by the
burst — issues exactly one network query with the signature of that
filter state. -/
theorem C2_debounced_burst (now : Nat) (st st' : SchedState)
    (evs : List UiEvent) (acts : List Act)
    (hrun : Run now st evs acts st')
    (hstart : st.timer = none)
    (hne : keysOf evs ≠ [])
    (hburst : List.Chain' (fun a b => b.1 < a.1 + SEARCH_DEBOUNCE_MS) (keysOf evs)) :
    resolvesOf acts = [(lastDom st.dom (keysOf evs), true)]
    ∧ UiEvent.fire (lastFireTime 0 (keysOf evs)) ∈ evs
    ∧ (∀ (s : SchedState) (t : Nat) (d : Dom),
        (keyStep s t d).1.page = 1
        ∧ (keyStep s t d).1.cache = none
        ∧ (keyStep s t d).1.timer = some (t + SEARCH_DEBOUNCE_MS)
        ∧ Act.clearCache ∈ (keyStep s t d).2
        ∧ (s.prefetchLive = true → Act.abortPrefetch ∈ (keyStep s t d).2)
        ∧ (s.timer.isSome = true → Act.clearTimer ∈ (keyStep s t d).2))
    ∧ (∀ (ost : OrchState) (dom : Dom) (sl : Bool) (net : NetOutcome),
        ost.prefetchCache = none →
        (jsTrim dom.searchInput = ""
          ∨ MIN_SEARCH_LENGTH ≤ (jsTrim dom.searchInput).length) →
        networkRequestCount (fetchProducts ost dom sl true net).2 = 1
        ∧ Effect.networkRequest (getQueryKey dom ost.currentPage)
            ∈ (fetchProducts ost dom sl true net).2) := by
  refine ⟨?_, ?_, ?_, ?_⟩
  · cases hrun with
    | nil hdone => exact absurd rfl hne
    | key hord hbefore hrest =>
        obtain ⟨hrel, hchain'⟩ := List.chain'_cons'.mp hburst
        have h := run_pending_burst _ _ _ _ _ hrest _ rfl hchain' hrel
        rw [resolvesOf_append, resolvesOf_keyStep, List.nil_append, h.1]
        rfl
    | fire hord hdue hrest => rw [hstart] at hdue; cases hdue
  · cases hrun with
    | nil hdone => exact absurd rfl hne
    | key hord hbefore hrest =>
        obtain ⟨hrel, hchain'⟩ := List.chain'_cons'.mp hburst
        have h := run_pending_burst _ _ _ _ _ hrest _ rfl hchain' hrel
        rw [show keysOf (UiEvent.key _ _ :: _) = _ :: keysOf _ from rfl,
            lastFireTime_cons]
        exact List.mem_cons_of_mem _ h.2
    | fire hord hdue hrest => rw [hstart] at hdue; cases hdue
  · intro s t d
    refine ⟨rfl, rfl, rfl, ?_, ?_, ?_⟩
    · by_cases ht : s.timer.isSome <;> by_cases hp : s.prefetchLive <;>
        simp [keyStep, ht, hp]
    · intro hp
      by_cases ht : s.timer.isSome <;> simp [keyStep, ht, hp]
    · intro ht
      by_cases hp : s.prefetchLive <;> simp [keyStep, ht, hp]
  · intro ost dom sl net hnone hvalid
    refine fetchProducts_single_request ost dom sl true net hnone ?_
    rcases hvalid with h | h
    · exact fun hcontra => hcontra.1 h
    · intro hcontra
      have := hcontra.2
      simp only [MIN_SEARCH_LENGTH] at h this
      omega

/-- Concrete burst for the C2 witness: typing `"a"` then `"ab"` 200 ms
later, with the timer firing 400 ms after the second keystroke. -/
def c2d1 : Dom := ⟨"a", "", ""⟩

def c2d2 : Dom := ⟨"ab", "", ""⟩

def c2St0 : SchedState := ⟨none, 3, none, true, false, ⟨"", "", ""⟩⟩

def c2St1 : SchedState := (keyStep c2St0 100 c2d1).1

def c2St2 : SchedState := (keyStep c2St1 300 c2d2).1

def c2Evs : List UiEvent := [.key 100 c2d1, .key 300 c2d2, .fire 700]

def c2Acts : List Act :=
  (keyStep c2St0 100 c2d1).2 ++ ((keyStep c2St1 300 c2d2).2
    ++ ((fireStep c2St2).2 ++ []))

theorem c2RunExists : Run 0 c2St0 c2Evs c2Acts (fireStep c2St2).1 :=
  Run.key (by decide) (Or.inl rfl)
    (Run.key (by decide) (Or.inr ⟨500, rfl, by decide⟩)
      (Run.fire (by decide) rfl (Run.nil rfl)))

theorem C2_debounced_burst_witness :
    resolvesOf c2Acts = [(c2d2, true)]
    ∧ UiEvent.fire 700 ∈ c2Evs
    ∧ (keyStep c2St0 100 c2d1).1.page = 1
    ∧ networkRequestCount
        (fetchProducts ⟨1, none, false, false, none, []⟩ c2d2 true true .aborted).2
        = 1 := by
  have h := C2_debounced_burst 0 c2St0 (fireStep c2St2).1 c2Evs c2Acts
    c2RunExists rfl (by decide)
    (show List.Chain' _ [(100, c2d1), (300, c2d2)] from
      List.chain'_cons.mpr ⟨by decide, List.chain'_singleton _⟩)
  exact ⟨h.1, h.2.1, (h.2.2.1 c2St0 100 c2d1).1,
    (h.2.2.2 ⟨1, none, false, false, none, []⟩ c2d2 true .aborted rfl
      (Or.inr (by decide))).1⟩

end ProductImporter
